import Mathlib

/-!
A shallow embedding of the two JustTCG ingestion scripts
(`scripts/imports/justtcg_api_test.py` and `scripts/imports/justtcg_list_games.py`)
together with proofs of the testable properties stated in the design
specification.  JSON values are modelled by an inductive type, Python's
dictionary accesses, truthiness and iteration by explicit functions, and
each script's fetch/reshape/write pipeline by a pure function from the
resolved credential and the HTTP response to a run result recording the
number of network calls made, the files written and the outcome.
-/

/-- JSON values as produced by `response.json()`.  Numbers are modelled by
integers: none of the scripts performs arithmetic, so only the identity of a
numeric value matters.  Objects are ordered association lists with the keys
unique, matching Python dictionaries. -/
inductive Json where
  | null
  | bool (b : Bool)
  | num (n : Int)
  | str (s : String)
  | arr (xs : List Json)
  | obj (fields : List (String × Json))
deriving Repr

/-- The error taxonomy of the specification (section 7).  The scripts raise
`RuntimeError` for the configuration and shape failures and let `requests`
raise for HTTP failures; each raise-site is mapped to its taxonomy name.
`AttributeError` and `TypeError` model the corresponding Python built-in
exceptions raised by attribute access on a non-dictionary and by iteration
over a non-iterable. -/
inductive PyError where
  | ConfigurationError
  | HttpError (status : Nat)
  | ShapeError
  | AttributeError
  | TypeError
deriving Repr, DecidableEq

/-- Python truthiness of a JSON value: `None`, `False`, `0`, `""`, `[]` and
`{}` are falsy, everything else is truthy. -/
def Json.truthy : Json → Bool
  | .null => false
  | .bool b => b
  | .num n => decide (n ≠ 0)
  | .str ⟨[]⟩ => false
  | .str ⟨_ :: _⟩ => true
  | .arr [] => false
  | .arr (_ :: _) => true
  | .obj [] => false
  | .obj (_ :: _) => true

/-- Python's `x or y` evaluated on JSON values. -/
def pyOr (a b : Json) : Json := if a.truthy then a else b

/-- Python's `d.get(key)` (no default): on a dictionary, the stored value or
`None`; on any other value, an `AttributeError`. -/
def Json.get : Json → String → Except PyError Json
  | .obj fs, k => .ok ((fs.lookup k).getD .null)
  | _, _ => .error .AttributeError

/-- Python's `d.get(key, default)`: on a dictionary, the stored value or the
default; on any other value, an `AttributeError`. -/
def Json.getD : Json → String → Json → Except PyError Json
  | .obj fs, k, d => .ok ((fs.lookup k).getD d)
  | _, _, _ => .error .AttributeError

/-- Python iteration `for v in x`: lists yield their elements, strings yield
their characters as one-character strings, dictionaries yield their keys,
everything else raises `TypeError`. -/
def Json.iterate : Json → Except PyError (List Json)
  | .arr xs => .ok xs
  | .str s => .ok (s.toList.map (fun c => .str (String.mk [c])))
  | .obj fs => .ok (fs.map (fun p => .str p.1))
  | _ => .error .TypeError

/-- Effectful map over a list in `Except`, the meaning of a Python list
comprehension or an append loop whose body may raise. -/
def exceptMapM (f : Json → Except PyError Json) : List Json → Except PyError (List Json)
  | [] => .ok []
  | x :: xs => do
    let y ← f x
    let ys ← exceptMapM f xs
    .ok (y :: ys)

/-- The output-key/source-key pairs of the `base` dictionary built once per
card in `justtcg_api_test.py` (lines 49-61). -/
def baseKeys : List (String × String) :=
  [("card_id", "id"), ("name", "name"), ("game", "game"), ("set_id", "set"),
   ("set_name", "set_name"), ("number", "number"), ("rarity", "rarity"),
   ("details", "details"), ("tcgplayerId", "tcgplayerId"),
   ("mtgjsonId", "mtgjsonId"), ("scryfallId", "scryfallId")]

/-- The output-key/source-key pairs of the variant-specific part of each
flattened row in `justtcg_api_test.py` (lines 64-77). -/
def variantKeys : List (String × String) :=
  [("variant_id", "id"), ("condition", "condition"), ("printing", "printing"),
   ("language", "language"), ("tcgplayerSkuId", "tcgplayerSkuId"),
   ("price", "price"), ("lastUpdated", "lastUpdated"),
   ("priceChange24hr", "priceChange24hr"), ("priceChange7d", "priceChange7d"),
   ("avgPrice", "avgPrice")]

/-- Builds the association list `[(out, src.get k), ...]` for a list of
output-key/source-key pairs, propagating the `AttributeError` that
`src.get k` raises when `src` is not a dictionary. -/
def buildFields (src : Json) : List (String × String) → Except PyError (List (String × Json))
  | [] => .ok []
  | (out, k) :: rest => do
    let v ← src.get k
    let tail ← buildFields src rest
    .ok ((out, v) :: tail)

/-- One iteration of the outer flattening loop of `justtcg_api_test.py`
(lines 48-77): build `base` from the card, then for each element of
`card.get("variants") or []` emit `{**base, variant fields}`.  The base and
variant output keys are disjoint, so the merged dictionary is the
concatenation of the two association lists. -/
def flattenCard (card : Json) : Except PyError (List Json) := do
  let base ← buildFields card baseKeys
  let vsRaw ← card.get "variants"
  let vs ← (pyOr vsRaw (.arr [])).iterate
  exceptMapM (fun v => do
    let vf ← buildFields v variantKeys
    .ok (Json.obj (base ++ vf))) vs

/-- Tail of the flattening loop: processes the remaining cards, appending
each card's rows to the accumulator, exactly as the Python loop appends to
the `flat_variants` list. -/
def flat_variants_loop : List Json → List Json → Except PyError (List Json)
  | [], acc => .ok acc
  | card :: rest, acc => do
    let rows ← flattenCard card
    flat_variants_loop rest (acc ++ rows)

/-- The `flat_variants` list of `justtcg_api_test.py` (lines 47-77) as a
function of the extracted card list. -/
def flat_variants (cards : List Json) : Except PyError (List Json) :=
  flat_variants_loop cards []

/-- The card extraction of `justtcg_api_test.py` (lines 42-44):
`cards = body.get("data", [])` followed by
`if not isinstance(cards, list): raise`. -/
def extractCards (body : Json) : Except PyError (List Json) := do
  let cards ← body.getD "data" (.arr [])
  match cards with
  | .arr xs => .ok xs
  | _ => .error .ShapeError

/-- The per-item mapping of the `simple_list` comprehension in
`justtcg_list_games.py` (lines 27-33). -/
def rawToEntry (s : Json) : Except PyError Json := do
  let i ← s.get "id"
  let n ← s.get "name"
  let v ← s.get "variants_count"
  let c ← s.get "cards_count"
  .ok (Json.obj [("id", i), ("name", n), ("variants_count", v), ("cards_count", c)])

/-- The `simple_list` computation of `justtcg_list_games.py` (lines 24-34):
`sets = data.get("data", [])` (no shape check) followed by the
comprehension `[{...} for s in sets]`. -/
def simple_list (data : Json) : Except PyError (List Json) := do
  let sets ← data.getD "data" (.arr [])
  let items ← sets.iterate
  exceptMapM rawToEntry items

/-- Substring containment, Python's `needle in hay` on strings. -/
def strContains (hay needle : String) : Bool :=
  (List.range (hay.toList.length + 1)).any
    (fun i => ((hay.toList.drop i).take needle.toList.length) == needle.toList)

/-- Python's `s.startswith(pre)` on strings. -/
def strStarts (s pre : String) : Bool :=
  (s.toList.take pre.toList.length) == pre.toList

/-- An HTTP response as seen by the scripts: status code and parsed body. -/
structure HttpResponse where
  status : Nat
  body : Json
deriving Repr

/-- The observable effects of one script run: how many network requests were
issued, which files were written (path and JSON content), and the outcome. -/
structure RunResult where
  networkCalls : Nat
  filesWritten : List (String × Json)
  outcome : Except PyError Unit
deriving Repr

/-- Output path of `justtcg_api_test.py`, from `GAME_ID`, `SET_ID` and
`CARD_NUMBER` (line 20). -/
def OUTPUT_FILE : String := "pokemon_sv-black-bolt-pokemon_card_1_variants.json"

/-- The credential pre-flight check of `justtcg_api_test.py` (line 9):
`not API_KEY or API_KEY.startswith("YOUR_")`. -/
def placeholderTest (key : String) : Bool :=
  key == "" || strStarts key "YOUR_"

/-- The credential pre-flight check of `justtcg_list_games.py` (line 8):
`not API_KEY or "YOUR_API_KEY_HERE" in API_KEY`. -/
def placeholderGames (key : String) : Bool :=
  key == "" || strContains key "YOUR_API_KEY_HERE"

/-- `requests`' `raise_for_status` raises for client and server error
statuses, i.e. 400-599. -/
def failureStatus (status : Nat) : Bool :=
  decide (400 ≤ status) && decide (status < 600)

/-- A full run of `justtcg_api_test.py` as a function of the resolved
credential and the HTTP response: credential check, single GET,
`raise_for_status`, shape check, flattening, single write at the end. -/
def detailRun (apiKey : String) (resp : HttpResponse) : RunResult :=
  if placeholderTest apiKey then
    ⟨0, [], .error .ConfigurationError⟩
  else if failureStatus resp.status then
    ⟨1, [], .error (.HttpError resp.status)⟩
  else
    match (do
      let cards ← extractCards resp.body
      flat_variants cards : Except PyError (List Json)) with
    | .ok rows => ⟨1, [(OUTPUT_FILE, .arr rows)], .ok ()⟩
    | .error e => ⟨1, [], .error e⟩

/-- A full run of `justtcg_list_games.py` as a function of the resolved
credential and the HTTP response: credential check, single GET,
`raise_for_status`, list mapping (no shape check), single write at the
end to `pokemon_sets.json`. -/
def catalogRun (apiKey : String) (resp : HttpResponse) : RunResult :=
  if placeholderGames apiKey then
    ⟨0, [], .error .ConfigurationError⟩
  else if failureStatus resp.status then
    ⟨1, [], .error (.HttpError resp.status)⟩
  else
    match simple_list resp.body with
    | .ok entries => ⟨1, [("pokemon_sets.json", .arr entries)], .ok ()⟩
    | .error e => ⟨1, [], .error e⟩

/-- The variant sequence of a detail record as the specification reads it:
the value of the record's `variants` field when that is a list, and the
empty sequence when the field is absent or not a list. -/
def variantList (card : Json) : List Json :=
  match card with
  | .obj fs =>
    match fs.lookup "variants" with
    | some (.arr vs) => vs
    | _ => []
  | _ => []

/-- The rows a single detail record contributes to the flattened output
(empty when flattening that record raises). -/
def cardRows (card : Json) : List Json :=
  match flattenCard card with
  | .ok rows => rows
  | .error _ => []

/-- Witness card for C2 and C10: one card with a single variant. -/
def wCard : Json :=
  Json.obj [("id", Json.str "c1"), ("name", Json.str "Snivy"),
            ("variants", Json.arr [Json.obj [("id", Json.str "v1")]])]

/-- The single flattened row produced from `wCard`. -/
def wRow : Json :=
  Json.obj
    [("card_id", Json.str "c1"), ("name", Json.str "Snivy"), ("game", Json.null),
     ("set_id", Json.null), ("set_name", Json.null), ("number", Json.null),
     ("rarity", Json.null), ("details", Json.null), ("tcgplayerId", Json.null),
     ("mtgjsonId", Json.null), ("scryfallId", Json.null),
     ("variant_id", Json.str "v1"), ("condition", Json.null),
     ("printing", Json.null), ("language", Json.null),
     ("tcgplayerSkuId", Json.null), ("price", Json.null),
     ("lastUpdated", Json.null), ("priceChange24hr", Json.null),
     ("priceChange7d", Json.null), ("avgPrice", Json.null)]

/-- Witness catalog item for C7, the scenario of the specification. -/
def wItem : Json :=
  Json.obj [("id", Json.str "s1"), ("name", Json.str "Set One"),
            ("variants_count", Json.num 3), ("cards_count", Json.num 10)]

/-- The catalog entry produced from `wItem`. -/
def wEntry : Json :=
  Json.obj [("id", Json.str "s1"), ("name", Json.str "Set One"),
            ("variants_count", Json.num 3), ("cards_count", Json.num 10)]

theorem lookup_append_left {α β : Type} [BEq α] {l₁ l₂ : List (α × β)} {k : α} {v : β}
    (h : l₁.lookup k = some v) : (l₁ ++ l₂).lookup k = some v := by
  induction l₁ with
  | nil => simp [List.lookup] at h
  | cons p rest ih =>
    obtain ⟨a, b⟩ := p
    simp only [List.cons_append, List.lookup] at h ⊢
    cases hk : k == a with
    | true => simpa [hk] using h
    | false => simp [hk] at h ⊢; exact ih h

theorem lookup_append_right {α β : Type} [BEq α] {l₁ : List (α × β)} {k : α}
    (h : l₁.lookup k = none) (l₂ : List (α × β)) :
    (l₁ ++ l₂).lookup k = l₂.lookup k := by
  induction l₁ with
  | nil => simp
  | cons p rest ih =>
    obtain ⟨a, b⟩ := p
    simp only [List.cons_append, List.lookup] at h ⊢
    cases hk : k == a with
    | true => simp [hk] at h
    | false => simp [hk] at h ⊢; exact ih h

theorem lookup_map_values {α β γ : Type} [BEq α] (g : β → γ) (ks : List (α × β)) (k : α) :
    (ks.map (fun p => (p.1, g p.2))).lookup k = (ks.lookup k).map g := by
  induction ks with
  | nil => simp [List.lookup]
  | cons p rest ih =>
    obtain ⟨a, b⟩ := p
    simp only [List.map, List.lookup]
    cases hk : k == a with
    | true => simp [hk]
    | false => simp [hk, ih]

theorem exceptMapM_length {f : Json → Except PyError Json} {l : List Json} {r : List Json}
    (h : exceptMapM f l = .ok r) : r.length = l.length := by
  induction l generalizing r with
  | nil => simp [exceptMapM] at h; simp [← h]
  | cons x xs ih =>
    simp only [exceptMapM, bind, Except.bind] at h
    cases hx : f x with
    | error e => simp [hx] at h
    | ok y =>
      simp only [hx] at h
      cases hxs : exceptMapM f xs with
      | error e => simp [hxs] at h
      | ok ys =>
        simp only [hxs] at h
        cases h
        simp [ih hxs]

theorem exceptMapM_get {f : Json → Except PyError Json} {l : List Json} {r : List Json}
    (h : exceptMapM f l = .ok r) :
    ∀ i (hi : i < l.length) (hi' : i < r.length), f (l.get ⟨i, hi⟩) = .ok (r.get ⟨i, hi'⟩) := by
  induction l generalizing r with
  | nil => intro i hi; simp at hi
  | cons x xs ih =>
    simp only [exceptMapM, bind, Except.bind] at h
    cases hx : f x with
    | error e => simp [hx] at h
    | ok y =>
      simp only [hx] at h
      cases hxs : exceptMapM f xs with
      | error e => simp [hxs] at h
      | ok ys =>
        simp only [hxs] at h
        cases h
        intro i hi hi'
        match i with
        | 0 => simpa using hx
        | Nat.succ j =>
          simp only [List.get]
          exact ih hxs j (by simpa using hi) (by simpa using hi')

theorem buildFields_obj (fs : List (String × Json)) (ks : List (String × String)) :
    buildFields (.obj fs) ks = .ok (ks.map fun p => (p.1, (fs.lookup p.2).getD .null)) := by
  induction ks with
  | nil => simp [buildFields]
  | cons p rest ih =>
    obtain ⟨out, k⟩ := p
    simp [buildFields, Json.get, bind, Except.bind, ih]

theorem flattenCard_obj (fs : List (String × Json)) :
    flattenCard (.obj fs) =
      (do
        let vs ← (pyOr ((fs.lookup "variants").getD .null) (.arr [])).iterate
        exceptMapM (fun v => do
          let vf ← buildFields v variantKeys
          .ok (Json.obj ((baseKeys.map fun p => (p.1, (fs.lookup p.2).getD .null)) ++ vf))) vs) := by
  simp [flattenCard, buildFields_obj, Json.get, bind, Except.bind]

theorem flattenCard_length {card : Json} {rows : List Json}
    (h : flattenCard card = .ok rows) : rows.length = (variantList card).length := by
  cases card with
  | obj fs =>
    rw [flattenCard_obj] at h
    simp only [variantList]
    cases hv : fs.lookup "variants" with
    | none =>
      simp [hv, pyOr, Json.truthy, Json.iterate, exceptMapM, bind, Except.bind] at h
      simp [← h]
    | some v =>
      cases v with
      | null =>
        simp [hv, pyOr, Json.truthy, Json.iterate, exceptMapM, bind, Except.bind] at h
        simp [← h]
      | bool b =>
        cases b with
        | false =>
          simp [hv, pyOr, Json.truthy, Json.iterate, exceptMapM, bind, Except.bind] at h
          simp [← h]
        | true =>
          simp [hv, pyOr, Json.truthy, Json.iterate, bind, Except.bind] at h
      | num n =>
        by_cases hn : n = 0
        · subst hn
          simp [hv, pyOr, Json.truthy, Json.iterate, exceptMapM, bind, Except.bind] at h
          simp [← h]
        · simp [hv, hn, pyOr, Json.truthy, Json.iterate, bind, Except.bind] at h
      | str s =>
        obtain ⟨cs⟩ := s
        cases cs with
        | nil =>
          simp [hv, pyOr, Json.truthy, Json.iterate, exceptMapM, bind, Except.bind] at h
          simp [← h]
        | cons c cs' =>
          simp [hv, pyOr, Json.truthy, Json.iterate, exceptMapM, buildFields, variantKeys,
                Json.get, bind, Except.bind] at h
      | arr vs =>
        cases vs with
        | nil =>
          simp [hv, pyOr, Json.truthy, Json.iterate, exceptMapM, bind, Except.bind] at h
          simp [← h]
        | cons v0 vs' =>
          simp only [hv, Option.getD, pyOr, Json.truthy, if_true, Json.iterate, bind,
                     Except.bind] at h
          simpa using exceptMapM_length h
      | obj gs =>
        cases gs with
        | nil =>
          simp [hv, pyOr, Json.truthy, Json.iterate, exceptMapM, bind, Except.bind] at h
          simp [← h]
        | cons g gs' =>
          simp [hv, pyOr, Json.truthy, Json.iterate, exceptMapM, buildFields, variantKeys,
                Json.get, bind, Except.bind] at h
  | null => simp [flattenCard, buildFields, baseKeys, Json.get, bind, Except.bind] at h
  | bool b => simp [flattenCard, buildFields, baseKeys, Json.get, bind, Except.bind] at h
  | num n => simp [flattenCard, buildFields, baseKeys, Json.get, bind, Except.bind] at h
  | str s => simp [flattenCard, buildFields, baseKeys, Json.get, bind, Except.bind] at h
  | arr xs => simp [flattenCard, buildFields, baseKeys, Json.get, bind, Except.bind] at h

theorem flat_variants_loop_append (cards : List Json) (acc : List Json) :
    flat_variants_loop cards acc =
      Except.map (fun r => acc ++ r) (flat_variants_loop cards []) := by
  induction cards generalizing acc with
  | nil => simp [flat_variants_loop, Except.map]
  | cons c cs ih =>
    simp only [flat_variants_loop, bind, Except.bind]
    cases hc : flattenCard c with
    | error e => simp [Except.map]
    | ok rows =>
      dsimp only
      rw [List.nil_append, ih (acc ++ rows), ih rows]
      cases flat_variants_loop cs [] <;> simp [Except.map]

theorem flat_variants_cons (c : Json) (cs : List Json) :
    flat_variants (c :: cs) =
      (do
        let rows ← flattenCard c
        let rest ← flat_variants cs
        .ok (rows ++ rest) : Except PyError (List Json)) := by
  simp only [flat_variants, flat_variants_loop, bind, Except.bind]
  cases hc : flattenCard c with
  | error e => rfl
  | ok rows =>
    dsimp only
    rw [List.nil_append, flat_variants_loop_append cs rows]
    cases flat_variants_loop cs [] <;> simp [Except.map]

theorem flat_variants_length_aux {cards rows : List Json}
    (h : flat_variants cards = .ok rows) :
    rows.length = (cards.map (fun c => (variantList c).length)).sum := by
  induction cards generalizing rows with
  | nil =>
    simp [flat_variants, flat_variants_loop] at h
    subst h
    simp
  | cons c cs ih =>
    rw [flat_variants_cons] at h
    simp only [bind, Except.bind] at h
    cases hc : flattenCard c with
    | error e => simp [hc] at h
    | ok rowsc =>
      simp only [hc] at h
      cases hcs : flat_variants cs with
      | error e => simp [hcs] at h
      | ok rest =>
        simp only [hcs] at h
        cases h
        simp [flattenCard_length hc, ih hcs]

theorem exceptMapM_mem {f : Json → Except PyError Json} {l r : List Json}
    (h : exceptMapM f l = .ok r) : ∀ y ∈ r, ∃ x ∈ l, f x = .ok y := by
  induction l generalizing r with
  | nil =>
    simp [exceptMapM] at h
    subst h
    simp
  | cons x xs ih =>
    simp only [exceptMapM, bind, Except.bind] at h
    cases hx : f x with
    | error e => simp [hx] at h
    | ok y =>
      simp only [hx] at h
      cases hxs : exceptMapM f xs with
      | error e => simp [hxs] at h
      | ok ys =>
        simp only [hxs] at h
        cases h
        intro z hz
        rcases List.mem_cons.mp hz with hz | hz
        · exact ⟨x, List.mem_cons_self x xs, by rw [hx, hz]⟩
        · rcases ih hxs z hz with ⟨w, hw, hfw⟩
          exact ⟨w, List.mem_cons_of_mem x hw, hfw⟩

theorem flattenCard_ok_obj {card : Json} {rows : List Json}
    (h : flattenCard card = .ok rows) : ∃ fs, card = .obj fs := by
  cases card with
  | obj fs => exact ⟨fs, rfl⟩
  | null => simp [flattenCard, buildFields, baseKeys, Json.get, bind, Except.bind] at h
  | bool b => simp [flattenCard, buildFields, baseKeys, Json.get, bind, Except.bind] at h
  | num n => simp [flattenCard, buildFields, baseKeys, Json.get, bind, Except.bind] at h
  | str s => simp [flattenCard, buildFields, baseKeys, Json.get, bind, Except.bind] at h
  | arr xs => simp [flattenCard, buildFields, baseKeys, Json.get, bind, Except.bind] at h

theorem buildFields_ok_obj {v : Json} {out k : String} {rest : List (String × String)}
    {vf : List (String × Json)} (h : buildFields v ((out, k) :: rest) = .ok vf) :
    ∃ gs, v = .obj gs := by
  cases v with
  | obj gs => exact ⟨gs, rfl⟩
  | null => simp [buildFields, Json.get, bind, Except.bind] at h
  | bool b => simp [buildFields, Json.get, bind, Except.bind] at h
  | num n => simp [buildFields, Json.get, bind, Except.bind] at h
  | str s => simp [buildFields, Json.get, bind, Except.bind] at h
  | arr xs => simp [buildFields, Json.get, bind, Except.bind] at h

theorem rawToEntry_obj (gs : List (String × Json)) :
    rawToEntry (.obj gs) =
      .ok (Json.obj
        [("id", (gs.lookup "id").getD .null),
         ("name", (gs.lookup "name").getD .null),
         ("variants_count", (gs.lookup "variants_count").getD .null),
         ("cards_count", (gs.lookup "cards_count").getD .null)]) := by
  simp [rawToEntry, Json.get, bind, Except.bind]

theorem rawToEntry_ok_obj {s e : Json} (h : rawToEntry s = .ok e) :
    ∃ gs, s = .obj gs := by
  cases s with
  | obj gs => exact ⟨gs, rfl⟩
  | null => simp [rawToEntry, Json.get, bind, Except.bind] at h
  | bool b => simp [rawToEntry, Json.get, bind, Except.bind] at h
  | num n => simp [rawToEntry, Json.get, bind, Except.bind] at h
  | str s => simp [rawToEntry, Json.get, bind, Except.bind] at h
  | arr xs => simp [rawToEntry, Json.get, bind, Except.bind] at h

theorem flat_variants_join {cards rows : List Json}
    (h : flat_variants cards = .ok rows) : rows = (cards.map cardRows).flatten := by
  induction cards generalizing rows with
  | nil =>
    simp [flat_variants, flat_variants_loop] at h
    subst h
    simp
  | cons c cs ih =>
    rw [flat_variants_cons] at h
    simp only [bind, Except.bind] at h
    cases hc : flattenCard c with
    | error e => simp [hc] at h
    | ok rowsc =>
      simp only [hc] at h
      cases hcs : flat_variants cs with
      | error e => simp [hcs] at h
      | ok rest =>
        simp only [hcs] at h
        cases h
        simp [cardRows, hc, ih hcs]

/-- C1: for every card list accepted by the flattening step, the number of
flattened rows equals the sum over all cards of the length of the card's
variant sequence; in particular a card whose variant sequence is empty
contributes zero rows and no placeholder row is emitted. -/
theorem flat_variants_counts_match {cards rows : List Json}
    (h : flat_variants cards = .ok rows) :
    rows.length = (cards.map (fun c => (variantList c).length)).sum ∧
    ∀ c : Json, variantList c = [] → cardRows c = [] := by
  refine ⟨flat_variants_length_aux h, ?_⟩
  intro c hc
  unfold cardRows
  cases hfc : flattenCard c with
  | error e => rfl
  | ok rowsc =>
    have := flattenCard_length hfc
    rw [hc] at this
    simpa using List.eq_nil_of_length_eq_zero (by simpa using this)

/-- Witness for C1: a card whose `variants` field is an empty list and a
card with no `variants` field at all flatten to zero rows, matching the
zero sum of variant-sequence lengths. -/
theorem flat_variants_counts_match_witness :
    ([] : List Json).length =
      (([Json.obj [("variants", Json.arr [])], Json.obj []].map
         (fun c => (variantList c).length)).sum) ∧
    ∀ c : Json, variantList c = [] → cardRows c = [] :=
  flat_variants_counts_match (by rfl)

/-- C9: a detail record whose `variants` field is absent or `None` is
flattened to zero rows without raising: `card.get("variants") or []`
replaces the missing or null value by the empty list. -/
theorem null_variants_zero_rows (fs : List (String × Json))
    (h : fs.lookup "variants" = none ∨ fs.lookup "variants" = some .null) :
    flattenCard (.obj fs) = .ok [] := by
  rw [flattenCard_obj]
  rcases h with h | h <;>
    simp [h, pyOr, Json.truthy, Json.iterate, exceptMapM, bind, Except.bind]

/-- Witness for C9: a record carrying only an `id` field (no `variants`
key) flattens successfully to zero rows. -/
theorem null_variants_zero_rows_witness :
    flattenCard (.obj [("id", Json.str "c1")]) = .ok [] :=
  null_variants_zero_rows [("id", Json.str "c1")] (Or.inl (by rfl))

/-- C2: every flattened row carries the parent card's shared fields (the
eleven base fields, keyed by the pairs in `baseKeys`) with exactly the
values the parent holds. -/
theorem rows_carry_parent_fields (card : Json) (rows : List Json)
    (h : flattenCard card = .ok rows) :
    ∀ row ∈ rows, ∀ out k : String, baseKeys.lookup out = some k →
      ∃ v, Json.get card k = .ok v ∧ Json.get row out = .ok v := by
  obtain ⟨fs, rfl⟩ := flattenCard_ok_obj h
  rw [flattenCard_obj] at h
  simp only [bind, Except.bind] at h
  cases hit : (pyOr ((fs.lookup "variants").getD .null) (.arr [])).iterate with
  | error e => simp [hit] at h
  | ok vs =>
    simp only [hit] at h
    intro row hrow out k hk
    obtain ⟨v, hv, hfv⟩ := exceptMapM_mem h row hrow
    cases hbf : buildFields v variantKeys with
    | error e => rw [hbf] at hfv; simp [bind, Except.bind] at hfv
    | ok vf =>
      rw [hbf] at hfv
      simp only [bind, Except.bind, Except.ok.injEq] at hfv
      subst hfv
      refine ⟨(fs.lookup k).getD .null, rfl, ?_⟩
      have hbase :
          ((baseKeys.map fun p => (p.1, (fs.lookup p.2).getD Json.null)).lookup out)
            = some ((fs.lookup k).getD .null) := by
        rw [lookup_map_values (fun q => (fs.lookup q).getD Json.null) baseKeys out, hk]
        rfl
      simp [Json.get, lookup_append_left hbase]

/-- Witness for C2: the row flattened from `wCard` carries its parent's
`name` value. -/
theorem rows_carry_parent_fields_witness :
    ∃ v, Json.get wCard "name" = .ok v ∧ Json.get wRow "name" = .ok v :=
  rows_carry_parent_fields wCard [wRow] (by rfl)
    wRow (by simp) "name" "name" (by rfl)

theorem simple_list_obj_arr {fs : List (String × Json)} {items : List Json}
    (hdata : fs.lookup "data" = some (.arr items)) :
    simple_list (.obj fs) = exceptMapM rawToEntry items := by
  simp [simple_list, Json.getD, hdata, Json.iterate, bind, Except.bind]

theorem entry_fields {s e : Json} (h : rawToEntry s = .ok e) :
    ∀ k : String, k = "id" ∨ k = "name" ∨ k = "variants_count" ∨ k = "cards_count" →
      Json.get e k = Json.get s k := by
  obtain ⟨gs, rfl⟩ := rawToEntry_ok_obj h
  rw [rawToEntry_obj] at h
  simp only [Except.ok.injEq] at h
  subst h
  intro k hk
  rcases hk with rfl | rfl | rfl | rfl <;> rfl

/-- C7: for a catalog body whose `data` field holds a list, the mapped
`simple_list` has exactly one entry per raw item, and each entry's `id`,
`name`, `variants_count` and `cards_count` agree with the raw item's. -/
theorem catalog_entry_count_and_fields (fs : List (String × Json))
    (items entries : List Json)
    (hdata : fs.lookup "data" = some (.arr items))
    (h : simple_list (.obj fs) = .ok entries) :
    entries.length = items.length ∧
    ∀ i (hi : i < entries.length) (hi' : i < items.length) (k : String),
      k = "id" ∨ k = "name" ∨ k = "variants_count" ∨ k = "cards_count" →
      Json.get (entries.get ⟨i, hi⟩) k = Json.get (items.get ⟨i, hi'⟩) k := by
  rw [simple_list_obj_arr hdata] at h
  refine ⟨exceptMapM_length h, ?_⟩
  intro i hi hi' k hk
  exact entry_fields (exceptMapM_get h i hi' hi) k hk

/-- Witness for C7: the scenario catalog response yields one entry whose
`id` is the raw item's `id`. -/
theorem catalog_entry_count_and_fields_witness :
    ([wEntry].length = [wItem].length) ∧
      Json.get wEntry "id" = Json.get wItem "id" :=
  ⟨(catalog_entry_count_and_fields [("data", Json.arr [wItem])]
      [wItem] [wEntry] (by rfl) (by rfl)).1,
   (catalog_entry_count_and_fields [("data", Json.arr [wItem])]
      [wItem] [wEntry] (by rfl) (by rfl)).2
     0 (by simp) (by simp) "id" (Or.inl rfl)⟩

/-- C8: a raw catalog item lacking one of the four optional fields is
mapped to an entry holding the explicit absent marker `null` for that
field, never the number zero or the empty string. -/
theorem missing_catalog_field_null (gs : List (String × Json)) (e : Json) (k : String)
    (hk : k = "id" ∨ k = "name" ∨ k = "variants_count" ∨ k = "cards_count")
    (hmiss : gs.lookup k = none)
    (h : rawToEntry (.obj gs) = .ok e) :
    Json.get e k = .ok .null ∧
    Json.get e k ≠ .ok (.num 0) ∧ Json.get e k ≠ .ok (.str "") := by
  rw [rawToEntry_obj] at h
  simp only [Except.ok.injEq] at h
  subst h
  rcases hk with rfl | rfl | rfl | rfl <;>
    refine ⟨by simp [Json.get, List.lookup, hmiss], ?_, ?_⟩ <;>
    simp [Json.get, List.lookup, hmiss]

/-- Witness for C8: an item with no fields at all maps to an entry whose
`variants_count` is `null`. -/
theorem missing_catalog_field_null_witness :
    Json.get (Json.obj [("id", Json.null), ("name", Json.null),
        ("variants_count", Json.null), ("cards_count", Json.null)])
      "variants_count" = .ok .null ∧
    Json.get (Json.obj [("id", Json.null), ("name", Json.null),
        ("variants_count", Json.null), ("cards_count", Json.null)])
      "variants_count" ≠ .ok (.num 0) ∧
    Json.get (Json.obj [("id", Json.null), ("name", Json.null),
        ("variants_count", Json.null), ("cards_count", Json.null)])
      "variants_count" ≠ .ok (.str "") :=
  missing_catalog_field_null []
    (Json.obj [("id", Json.null), ("name", Json.null),
        ("variants_count", Json.null), ("cards_count", Json.null)])
    "variants_count" (Or.inr (Or.inr (Or.inl rfl)))
    (by rfl) (by rfl)

theorem variant_row_id {gs : List (String × Json)} {vs rowsc : List Json}
    (hmap : exceptMapM (fun v => do
        let vf ← buildFields v variantKeys
        .ok (Json.obj ((baseKeys.map fun p => (p.1, (gs.lookup p.2).getD .null)) ++ vf))) vs
      = .ok rowsc) :
    ∀ i (h1 : i < rowsc.length) (h2 : i < vs.length),
      Json.get (rowsc.get ⟨i, h1⟩) "variant_id" = Json.get (vs.get ⟨i, h2⟩) "id" := by
  intro i h1 h2
  have hfv := exceptMapM_get hmap i h2 h1
  cases hbf : buildFields (vs.get ⟨i, h2⟩) variantKeys with
  | error e => rw [hbf] at hfv; simp [bind, Except.bind] at hfv
  | ok vf =>
    rw [hbf] at hfv
    simp only [bind, Except.bind, Except.ok.injEq] at hfv
    obtain ⟨gs', hv⟩ := buildFields_ok_obj (by rw [variantKeys] at hbf; exact hbf)
    rw [hv] at hbf
    rw [buildFields_obj] at hbf
    simp only [Except.ok.injEq] at hbf
    subst hbf
    rw [← hfv, hv]
    have hbase :
        ((baseKeys.map fun p => (p.1, (gs.lookup p.2).getD Json.null)).lookup "variant_id")
          = none := by
      rw [lookup_map_values (fun q => (gs.lookup q).getD Json.null) baseKeys "variant_id"]
      rfl
    have hvf :
        ((variantKeys.map fun p => (p.1, (gs'.lookup p.2).getD Json.null)).lookup "variant_id")
          = some ((gs'.lookup "id").getD Json.null) := by
      rw [lookup_map_values (fun q => (gs'.lookup q).getD Json.null) variantKeys "variant_id"]
      rfl
    simp [Json.get, lookup_append_right hbase, hvf]

/-- C10: both pipelines preserve input order: the catalog entries agree
index by index with the raw items, the flattened output is the in-order
concatenation of each card's rows, and within one card the i-th row is
built from the i-th variant. -/
theorem order_preservation
    (cards rows items entries : List Json) (fs : List (String × Json))
    (hdata : fs.lookup "data" = some (.arr items))
    (hcat : simple_list (.obj fs) = .ok entries)
    (hdet : flat_variants cards = .ok rows) :
    (∀ i (hi : i < entries.length) (hi' : i < items.length),
        Json.get (entries.get ⟨i, hi⟩) "id" = Json.get (items.get ⟨i, hi'⟩) "id")
  ∧ rows = (cards.map cardRows).flatten
  ∧ (∀ (gs : List (String × Json)) (vs : List Json),
        gs.lookup "variants" = some (.arr vs) →
        ∀ i (h1 : i < (cardRows (.obj gs)).length) (h2 : i < vs.length),
          Json.get ((cardRows (.obj gs)).get ⟨i, h1⟩) "variant_id"
            = Json.get (vs.get ⟨i, h2⟩) "id") := by
  refine ⟨?_, flat_variants_join hdet, ?_⟩
  · rw [simple_list_obj_arr hdata] at hcat
    intro i hi hi'
    exact entry_fields (exceptMapM_get hcat i hi' hi) "id" (Or.inl rfl)
  · intro gs vs hv i h1 h2
    rcases hfc : flattenCard (.obj gs) with e | rowsc
    · simp [cardRows, hfc] at h1
    · have hcr : cardRows (.obj gs) = rowsc := by simp [cardRows, hfc]
      subst hcr
      rw [flattenCard_obj] at hfc
      cases vs with
      | nil => simp at h2
      | cons v0 vs' =>
        simp only [hv, Option.getD, pyOr, Json.truthy, if_true, Json.iterate, bind,
                   Except.bind] at hfc
        exact variant_row_id hfc i h1 h2

/-- Witness for C10: the single-card, single-variant example flattens to
exactly its one row list, in order. -/
theorem order_preservation_witness :
    [wRow] = ([wCard].map cardRows).flatten :=
  (order_preservation [wCard] [wRow] [wItem] [wEntry] [("data", Json.arr [wItem])]
    (by rfl) (by rfl) (by rfl)).2.1

/-- Counterexample for C3: a detail response whose top-level object lacks
the `data` field is treated as an empty result, not a `ShapeError`:
`body.get("data", [])` substitutes the empty list before the shape check
runs. -/
theorem missing_data_is_empty_not_shape_error :
    extractCards (Json.obj []) = .ok [] ∧
    extractCards (Json.obj []) ≠ .error .ShapeError := by
  refine ⟨rfl, ?_⟩
  intro h
  rw [show extractCards (Json.obj []) = .ok [] from rfl] at h
  cases h

/-- C3 as amended: when the `data` field is present with a non-list value
the detail fetcher fails with `ShapeError`; when the field is absent the
default empty list is used and the fetcher returns the empty result. -/
theorem detail_shape_check (fs : List (String × Json)) :
    (fs.lookup "data" = none → extractCards (.obj fs) = .ok [])
  ∧ (∀ v, fs.lookup "data" = some v → (∀ xs, v ≠ .arr xs) →
      extractCards (.obj fs) = .error .ShapeError) := by
  constructor
  · intro h
    simp [extractCards, Json.getD, h, bind, Except.bind]
  · intro v h hv
    cases v with
    | arr xs => exact absurd rfl (hv xs)
    | null => simp [extractCards, Json.getD, h, bind, Except.bind]
    | bool b => simp [extractCards, Json.getD, h, bind, Except.bind]
    | num n => simp [extractCards, Json.getD, h, bind, Except.bind]
    | str s => simp [extractCards, Json.getD, h, bind, Except.bind]
    | obj gs => simp [extractCards, Json.getD, h, bind, Except.bind]

/-- Witness for the amended C3: an empty body yields the empty result, and
a body with a string under `data` yields `ShapeError`. -/
theorem detail_shape_check_witness :
    extractCards (Json.obj []) = .ok [] ∧
    extractCards (Json.obj [("data", Json.str "not-a-list")]) = .error .ShapeError :=
  ⟨(detail_shape_check []).1 rfl,
   (detail_shape_check [("data", Json.str "not-a-list")]).2
     (Json.str "not-a-list") rfl (by intro xs h; cases h)⟩

/-- Counterexample for C4: on the body with `data` bound to the string
"not-a-list" the catalog fetcher raises `AttributeError` (iterating the
string and calling `.get` on its first character), not `ShapeError`. -/
theorem catalog_string_not_shape_error :
    simple_list (Json.obj [("data", Json.str "not-a-list")]) = .error .AttributeError ∧
    simple_list (Json.obj [("data", Json.str "not-a-list")]) ≠ .error .ShapeError := by
  refine ⟨rfl, ?_⟩
  intro h
  rw [show simple_list (Json.obj [("data", Json.str "not-a-list")])
        = .error .AttributeError from rfl] at h
  simp at h

/-- C4 as amended: on the body with `data` bound to the string
"not-a-list", the detail fetcher fails with `ShapeError`, while the
catalog fetcher, which performs no shape check, fails with
`AttributeError`; neither treats the value as an empty or single-item
collection. -/
theorem not_a_list_behaviour :
    extractCards (Json.obj [("data", Json.str "not-a-list")]) = .error .ShapeError ∧
    simple_list (Json.obj [("data", Json.str "not-a-list")]) = .error .AttributeError :=
  ⟨rfl, rfl⟩

/-- C5: a run of either script with an empty or placeholder credential
fails with `ConfigurationError` and performs no network call. -/
theorem bad_credential_no_network (key : String) (rD rC : HttpResponse) :
    ((key = "" ∨ strStarts key "YOUR_" = true) →
      (detailRun key rD).networkCalls = 0 ∧
      (detailRun key rD).outcome = .error .ConfigurationError)
  ∧ ((key = "" ∨ strContains key "YOUR_API_KEY_HERE" = true) →
      (catalogRun key rC).networkCalls = 0 ∧
      (catalogRun key rC).outcome = .error .ConfigurationError) := by
  constructor
  · intro h
    have hp : placeholderTest key = true := by
      rcases h with rfl | h
      · rfl
      · simp [placeholderTest, h]
    simp [detailRun, hp]
  · intro h
    have hp : placeholderGames key = true := by
      rcases h with rfl | h
      · rfl
      · simp [placeholderGames, h]
    simp [catalogRun, hp]

/-- Witness for C5: the placeholder sentinel value itself trips both
pre-flight checks, with zero network calls observed. -/
theorem bad_credential_no_network_witness :
    ((detailRun "YOUR_API_KEY_HERE" ⟨200, Json.null⟩).networkCalls = 0 ∧
     (detailRun "YOUR_API_KEY_HERE" ⟨200, Json.null⟩).outcome = .error .ConfigurationError) ∧
    ((catalogRun "YOUR_API_KEY_HERE" ⟨200, Json.null⟩).networkCalls = 0 ∧
     (catalogRun "YOUR_API_KEY_HERE" ⟨200, Json.null⟩).outcome = .error .ConfigurationError) :=
  ⟨(bad_credential_no_network "YOUR_API_KEY_HERE" ⟨200, Json.null⟩ ⟨200, Json.null⟩).1
     (Or.inr (by decide)),
   (bad_credential_no_network "YOUR_API_KEY_HERE" ⟨200, Json.null⟩ ⟨200, Json.null⟩).2
     (Or.inr (by decide))⟩

/-- C6: a failure HTTP status makes either run fail with `HttpError` and
write no file; moreover, in every run of either script that ends in any
error, no file at all is written — the single write happens only after
fetching and flattening succeed. -/
theorem http_failure_no_write (key : String) (resp : HttpResponse)
    (hkD : placeholderTest key = false)
    (hkC : placeholderGames key = false)
    (hst : failureStatus resp.status = true) :
    ((detailRun key resp).outcome = .error (.HttpError resp.status) ∧
     (detailRun key resp).filesWritten = [])
  ∧ ((catalogRun key resp).outcome = .error (.HttpError resp.status) ∧
     (catalogRun key resp).filesWritten = [])
  ∧ (∀ (k : String) (r : HttpResponse) (e : PyError),
       (detailRun k r).outcome = .error e → (detailRun k r).filesWritten = [])
  ∧ (∀ (k : String) (r : HttpResponse) (e : PyError),
       (catalogRun k r).outcome = .error e → (catalogRun k r).filesWritten = []) := by
  refine ⟨by simp [detailRun, hkD, hst], by simp [catalogRun, hkC, hst], ?_, ?_⟩
  · intro k r e h
    by_cases hp : placeholderTest k = true
    · simp [detailRun, hp]
    · by_cases hs : failureStatus r.status = true
      · simp [detailRun, hp, hs]
      · rcases hm : (do
            let cards ← extractCards r.body
            flat_variants cards : Except PyError (List Json)) with e' | rows
        · simp [detailRun, hp, hs, hm]
        · simp [detailRun, hp, hs, hm] at h
  · intro k r e h
    by_cases hp : placeholderGames k = true
    · simp [catalogRun, hp]
    · by_cases hs : failureStatus r.status = true
      · simp [catalogRun, hp, hs]
      · rcases hm : simple_list r.body with e' | entries
        · simp [catalogRun, hp, hs, hm]
        · simp [catalogRun, hp, hs, hm] at h

/-- Witness for C6: a 404 response with a well-formed credential ends in
`HttpError 404` with no file written. -/
theorem http_failure_no_write_witness :
    ((detailRun "tcg_key" ⟨404, Json.null⟩).outcome = .error (.HttpError 404) ∧
     (detailRun "tcg_key" ⟨404, Json.null⟩).filesWritten = [])
  ∧ ((catalogRun "tcg_key" ⟨404, Json.null⟩).outcome = .error (.HttpError 404) ∧
     (catalogRun "tcg_key" ⟨404, Json.null⟩).filesWritten = [])
  ∧ (∀ (k : String) (r : HttpResponse) (e : PyError),
       (detailRun k r).outcome = .error e → (detailRun k r).filesWritten = [])
  ∧ (∀ (k : String) (r : HttpResponse) (e : PyError),
       (catalogRun k r).outcome = .error e → (catalogRun k r).filesWritten = []) :=
  http_failure_no_write "tcg_key" ⟨404, Json.null⟩ (by decide) (by decide) (by decide)
